import Mathlib

/-!
Verification of the push/pull toolbar-button affordance selector
(`app/src/ui/toolbar/push-pull-button.tsx`).

The component is a pure decision procedure: from a synchronization status
snapshot it selects exactly one button descriptor (in-progress, publish
repository, publish branch, fetch, pull, push) and computes its display
attributes.  We embed the decision procedure and its helper builders and
prove the spec's properties about them.
-/

namespace PushPull

/-- Octicon symbols used by the component. -/
inductive OcticonSymbol
  | sync
  | cloudUpload
  | arrowDown
  | arrowUp
  | arrowSmallUp
  | arrowSmallDown
deriving DecidableEq, Repr

/-- Toolbar button styles; only `Subtitle` is used here. -/
inductive ToolbarButtonStyle
  | Subtitle
deriving DecidableEq, Repr

/-- The `TipState` of the current branch.
Modelled from the spec: the `TipState` enum lives in `models/tip`, outside
the unit under study; the spec gives `enum {Valid, Unborn, Detached}`. -/
inductive TipState
  | Valid
  | Unborn
  | Detached
deriving DecidableEq, Repr

/-- The ahead/behind count pair for the current branch (`IAheadBehind`). -/
structure IAheadBehind where
  ahead : Nat
  behind : Nat
deriving DecidableEq, Repr

/-- Progress information for the current operation (`models/progress`):
a title, an optional description and a fractional value. -/
structure Progress where
  title : String
  description : Option String
  value : Float
deriving Repr

/-- The action a button binds through `onClick`: the component's `push`,
`pull` and `fetch` closures dispatch exactly one repository operation. -/
inductive ActionTag
  | Push
  | Pull
  | Fetch
deriving DecidableEq, Repr

/-- One `<span>` of the ahead/behind badge: a count next to an arrow icon,
keyed `"ahead"` or `"behind"`. -/
structure BadgeEntry where
  key : String
  count : Nat
  symbol : OcticonSymbol
deriving DecidableEq, Repr

/-- The description slot of a button: either a plain string or the
`Last fetched <RelativeTime/>` span produced by `renderLastFetched`. -/
inductive DescriptionContent
  | str (s : String)
  | lastFetchedSpan (date : Nat)
deriving DecidableEq, Repr

/-- The rendered `ToolbarButton` element, one field per prop the component
passes.  Props a call site omits are `none` (or `false` for `disabled`);
the children slot holds the optional ahead/behind badge. -/
structure ToolbarButton where
  title : String
  description : DescriptionContent
  progressValue : Option Float
  className : String
  icon : OcticonSymbol
  iconClassName : Option String
  style : ToolbarButtonStyle
  tooltip : Option String
  disabled : Bool
  onClick : Option ActionTag
  badge : Option (List BadgeEntry)
deriving Repr

/-- The immutable status snapshot the component renders from
(`IPushPullButtonProps` minus the dispatcher and repository collaborators).
`isGitHubHosted` is modelled from the spec: it stands for the source's
`!!repository.gitHubRepository`, whose `Repository` model is outside the
unit under study; the spec makes it the boolean `isGitHubHosted`. -/
structure SyncStatus where
  aheadBehind : Option IAheadBehind
  remoteName : Option String
  networkActionInProgress : Bool
  lastFetched : Option Nat
  progress : Option Progress
  tipState : TipState
  pullWithRebase : Option Bool
  rebaseInProgress : Bool
  isGitHubHosted : Bool
deriving Repr

/-- JavaScript `a || b` on an optional string: `undefined` and the empty
string are falsy, so both fall through to the default. -/
def jsOrElse (a : Option String) (b : String) : String :=
  match a with
  | none => b
  | some s => if s = "" then b else s

/-- Helper `renderAheadBehind`: the badge is omitted when the pair is absent or an
operation is in progress or both counts are zero; otherwise it holds one
span per strictly positive side, ahead first. -/
def renderAheadBehind (progress : Option Progress)
    (aheadBehind : Option IAheadBehind) : Option (List BadgeEntry) :=
  match aheadBehind, progress with
  | none, _ => none
  | some _, some _ => none
  | some ab, none =>
    if ab.ahead = 0 ∧ ab.behind = 0 then
      none
    else
      some ((if ab.ahead > 0 then [⟨"ahead", ab.ahead, .arrowSmallUp⟩] else [])
        ++ (if ab.behind > 0 then [⟨"behind", ab.behind, .arrowSmallDown⟩] else []))

/-- Helper `renderLastFetched`: a `Last fetched <RelativeTime/>` span when a fetch
date exists, the string `"Never fetched"` otherwise. -/
def renderLastFetched (lastFetched : Option Nat) : DescriptionContent :=
  match lastFetched with
  | some d => .lastFetchedSpan d
  | none => .str "Never fetched"

/-- Builder `progressButton`: disabled, no action, sync icon spinning iff a network
action is in progress, description falling back to `"Hang on…"`. -/
def progressButton (progress : Progress) (networkActionInProgress : Bool)
    (aheadBehind : Option IAheadBehind) : ToolbarButton :=
  { title := progress.title
    description := .str (jsOrElse progress.description "Hang on…")
    progressValue := some progress.value
    className := "push-pull-button"
    icon := .sync
    iconClassName := some (if networkActionInProgress then "spin" else "")
    style := .Subtitle
    tooltip := progress.description
    disabled := true
    onClick := none
    badge := renderAheadBehind (some progress) aheadBehind }

/-- Builder `publishRepositoryButton`: enabled, bound to the given click action. -/
def publishRepositoryButton (onClick : ActionTag) : ToolbarButton :=
  { title := "Publish repository"
    description := .str "Publish this repository to GitHub"
    progressValue := none
    className := "push-pull-button"
    icon := .cloudUpload
    iconClassName := none
    style := .Subtitle
    tooltip := none
    disabled := false
    onClick := some onClick
    badge := none }

/-- Builder `unbornRepositoryButton`: disabled, no action. -/
def unbornRepositoryButton : ToolbarButton :=
  { title := "Publish branch"
    description := .str "Cannot publish unborn HEAD"
    progressValue := none
    className := "push-pull-button"
    icon := .cloudUpload
    iconClassName := none
    style := .Subtitle
    tooltip := none
    disabled := true
    onClick := none
    badge := none }

/-- Builder `detachedHeadButton`: disabled, description distinguishing a rebase in
progress from a generic detached HEAD. -/
def detachedHeadButton (rebaseInProgress : Bool) : ToolbarButton :=
  { title := "Publish branch"
    description := .str (if rebaseInProgress then "Rebase in progress"
      else "Cannot publish detached HEAD")
    progressValue := none
    className := "push-pull-button"
    icon := .cloudUpload
    iconClassName := none
    style := .Subtitle
    tooltip := none
    disabled := true
    onClick := none
    badge := none }

/-- Builder `publishBranchButton`: enabled, wording varying with the hosting. -/
def publishBranchButton (isGitHub : Bool) (onClick : ActionTag) :
    ToolbarButton :=
  { title := "Publish branch"
    description := .str (if isGitHub then "Publish this branch to GitHub"
      else "Publish this branch to the remote")
    progressValue := none
    className := "push-pull-button"
    icon := .cloudUpload
    iconClassName := none
    style := .Subtitle
    tooltip := none
    disabled := false
    onClick := some onClick
    badge := none }

/-- Builder `fetchButton`: enabled, sync icon, badge from the ahead/behind pair. -/
def fetchButton (remoteName : String) (aheadBehind : IAheadBehind)
    (lastFetched : Option Nat) (onClick : ActionTag) : ToolbarButton :=
  { title := "Fetch " ++ remoteName
    description := renderLastFetched lastFetched
    progressValue := none
    className := "push-pull-button"
    icon := .sync
    iconClassName := none
    style := .Subtitle
    tooltip := none
    disabled := false
    onClick := some onClick
    badge := renderAheadBehind none (some aheadBehind) }

/-- Builder `pullButton`: enabled, down-arrow icon; the title takes the rebase
variant iff the preference and the capability flag are both on.
`enablePullWithRebase` is modelled from the spec: the source reads the
rebase-pull capability flag from `lib/feature-flag`, outside the unit under
study; the spec makes it an explicit boolean input. -/
def pullButton (remoteName : String) (aheadBehind : IAheadBehind)
    (lastFetched : Option Nat) (pullWithRebase : Bool)
    (enablePullWithRebase : Bool) (onClick : ActionTag) : ToolbarButton :=
  { title := if pullWithRebase && enablePullWithRebase then
      "Pull " ++ remoteName ++ " with rebase"
    else
      "Pull " ++ remoteName
    description := renderLastFetched lastFetched
    progressValue := none
    className := "push-pull-button"
    icon := .arrowDown
    iconClassName := none
    style := .Subtitle
    tooltip := none
    disabled := false
    onClick := some onClick
    badge := renderAheadBehind none (some aheadBehind) }

/-- Builder `pushButton`: enabled, up-arrow icon, badge from the pair. -/
def pushButton (remoteName : String) (aheadBehind : IAheadBehind)
    (lastFetched : Option Nat) (onClick : ActionTag) : ToolbarButton :=
  { title := "Push " ++ remoteName
    description := renderLastFetched lastFetched
    progressValue := none
    className := "push-pull-button"
    icon := .arrowUp
    iconClassName := none
    style := .Subtitle
    tooltip := none
    disabled := false
    onClick := some onClick
    badge := renderAheadBehind none (some aheadBehind) }

/-- The selector `PushPullButton.render`: the priority-ordered,
short-circuiting classification over the status snapshot.  The
`enablePullWithRebase` capability flag is threaded as an explicit argument
(see `pullButton`).  `pullWithRebase || false` is JavaScript: an absent
preference defaults to `false`. -/
def select (enablePullWithRebase : Bool) (s : SyncStatus) : ToolbarButton :=
  match s.progress with
  | some progress =>
    progressButton progress s.networkActionInProgress s.aheadBehind
  | none =>
    match s.remoteName with
    | none => publishRepositoryButton .Push
    | some remoteName =>
      if s.tipState = .Unborn then
        unbornRepositoryButton
      else if s.tipState = .Detached then
        detachedHeadButton s.rebaseInProgress
      else
        match s.aheadBehind with
        | none => publishBranchButton s.isGitHubHosted .Push
        | some aheadBehind =>
          if aheadBehind.ahead = 0 ∧ aheadBehind.behind = 0 then
            fetchButton remoteName aheadBehind s.lastFetched .Fetch
          else if aheadBehind.behind > 0 then
            pullButton remoteName aheadBehind s.lastFetched
              (s.pullWithRebase.getD false) enablePullWithRebase .Pull
          else
            pushButton remoteName aheadBehind s.lastFetched .Push

/-! ### Case lemmas: which builder `select` dispatches to in each region -/

lemma select_eq_progressButton (flag : Bool) (s : SyncStatus) (p : Progress)
    (h : s.progress = some p) :
    select flag s = progressButton p s.networkActionInProgress s.aheadBehind := by
  unfold select
  rw [h]

lemma select_eq_publishRepositoryButton (flag : Bool) (s : SyncStatus)
    (h1 : s.progress = none) (h2 : s.remoteName = none) :
    select flag s = publishRepositoryButton .Push := by
  unfold select
  rw [h1, h2]

lemma select_eq_unbornRepositoryButton (flag : Bool) (s : SyncStatus) (r : String)
    (h1 : s.progress = none) (h2 : s.remoteName = some r)
    (h3 : s.tipState = .Unborn) :
    select flag s = unbornRepositoryButton := by
  unfold select
  rw [h1, h2, h3]
  rfl

lemma select_eq_detachedHeadButton (flag : Bool) (s : SyncStatus) (r : String)
    (h1 : s.progress = none) (h2 : s.remoteName = some r)
    (h3 : s.tipState = .Detached) :
    select flag s = detachedHeadButton s.rebaseInProgress := by
  unfold select
  rw [h1, h2, h3]
  rfl

lemma select_eq_publishBranchButton (flag : Bool) (s : SyncStatus) (r : String)
    (h1 : s.progress = none) (h2 : s.remoteName = some r)
    (h3 : s.tipState = .Valid) (h4 : s.aheadBehind = none) :
    select flag s = publishBranchButton s.isGitHubHosted .Push := by
  unfold select
  rw [h1, h2, h3, h4]
  rfl

lemma select_eq_fetchButton (flag : Bool) (s : SyncStatus) (r : String)
    (ab : IAheadBehind) (h1 : s.progress = none) (h2 : s.remoteName = some r)
    (h3 : s.tipState = .Valid) (h4 : s.aheadBehind = some ab)
    (h5 : ab.ahead = 0) (h6 : ab.behind = 0) :
    select flag s = fetchButton r ab s.lastFetched .Fetch := by
  unfold select
  rw [h1, h2, h3, h4]
  simp [h5, h6]

lemma select_eq_pullButton (flag : Bool) (s : SyncStatus) (r : String)
    (ab : IAheadBehind) (h1 : s.progress = none) (h2 : s.remoteName = some r)
    (h3 : s.tipState = .Valid) (h4 : s.aheadBehind = some ab)
    (h5 : 0 < ab.behind) :
    select flag s =
      pullButton r ab s.lastFetched (s.pullWithRebase.getD false) flag .Pull := by
  unfold select
  rw [h1, h2, h3, h4]
  have hne : ¬(ab.ahead = 0 ∧ ab.behind = 0) := by omega
  simp [hne, h5]

lemma select_eq_pushButton (flag : Bool) (s : SyncStatus) (r : String)
    (ab : IAheadBehind) (h1 : s.progress = none) (h2 : s.remoteName = some r)
    (h3 : s.tipState = .Valid) (h4 : s.aheadBehind = some ab)
    (h5 : 0 < ab.ahead) (h6 : ab.behind = 0) :
    select flag s = pushButton r ab s.lastFetched .Push := by
  unfold select
  rw [h1, h2, h3, h4]
  have hne : ab.ahead ≠ 0 := by omega
  simp [hne, h6]

/-- Case split on an optional value that leaves the goal untouched. -/
lemma option_cases {α : Type _} (o : Option α) : o = none ∨ ∃ x, o = some x := by
  cases o
  · exact Or.inl rfl
  · exact Or.inr ⟨_, rfl⟩

/-- Case split on a tip state that leaves the goal untouched. -/
lemma tipState_cases (t : TipState) :
    t = .Valid ∨ t = .Unborn ∨ t = .Detached := by
  cases t
  · exact Or.inl rfl
  · exact Or.inr (Or.inl rfl)
  · exact Or.inr (Or.inr rfl)

/-- The badge is always suppressed while an operation is in progress. -/
lemma renderAheadBehind_progress (p : Progress) (ab : Option IAheadBehind) :
    renderAheadBehind (some p) ab = none := by
  cases ab <;> rfl

/-- The badge is always suppressed when the ahead/behind pair is absent. -/
lemma renderAheadBehind_nonePair (p : Option Progress) :
    renderAheadBehind p none = none := by
  cases p <;> rfl

/-- Unfolding of the badge helper outside an operation. -/
lemma renderAheadBehind_some (ab : IAheadBehind) :
    renderAheadBehind none (some ab) =
      if ab.ahead = 0 ∧ ab.behind = 0 then none
      else
        some ((if ab.ahead > 0 then [⟨"ahead", ab.ahead, .arrowSmallUp⟩] else [])
          ++ (if ab.behind > 0 then [⟨"behind", ab.behind, .arrowSmallDown⟩]
            else [])) := rfl

/-- Case elimination for `select`: every result is one of the eight
builders, applied in the source's priority region. -/
lemma select_cases (flag : Bool) (s : SyncStatus) (motive : ToolbarButton → Prop)
    (hprog : ∀ p, s.progress = some p →
      motive (progressButton p s.networkActionInProgress s.aheadBehind))
    (hrepo : s.progress = none → s.remoteName = none →
      motive (publishRepositoryButton .Push))
    (hunborn : ∀ r, s.progress = none → s.remoteName = some r →
      s.tipState = .Unborn → motive unbornRepositoryButton)
    (hdetached : ∀ r, s.progress = none → s.remoteName = some r →
      s.tipState = .Detached → motive (detachedHeadButton s.rebaseInProgress))
    (hbranch : ∀ r, s.progress = none → s.remoteName = some r →
      s.tipState = .Valid → s.aheadBehind = none →
      motive (publishBranchButton s.isGitHubHosted .Push))
    (hfetch : ∀ r ab, s.progress = none → s.remoteName = some r →
      s.tipState = .Valid → s.aheadBehind = some ab → ab.ahead = 0 →
      ab.behind = 0 → motive (fetchButton r ab s.lastFetched .Fetch))
    (hpull : ∀ r ab, s.progress = none → s.remoteName = some r →
      s.tipState = .Valid → s.aheadBehind = some ab → 0 < ab.behind →
      motive (pullButton r ab s.lastFetched (s.pullWithRebase.getD false)
        flag .Pull))
    (hpush : ∀ r ab, s.progress = none → s.remoteName = some r →
      s.tipState = .Valid → s.aheadBehind = some ab → 0 < ab.ahead →
      ab.behind = 0 → motive (pushButton r ab s.lastFetched .Push)) :
    motive (select flag s) := by
  rcases hpr : s.progress with _ | p
  · rcases hrn : s.remoteName with _ | r
    · rw [select_eq_publishRepositoryButton flag s hpr hrn]
      exact hrepo hpr hrn
    · rcases hts : s.tipState with _ | _ | _
      · rcases hab : s.aheadBehind with _ | ab
        · rw [select_eq_publishBranchButton flag s r hpr hrn hts hab]
          exact hbranch r hpr hrn hts hab
        · by_cases hz : ab.ahead = 0 ∧ ab.behind = 0
          · rw [select_eq_fetchButton flag s r ab hpr hrn hts hab hz.1 hz.2]
            exact hfetch r ab hpr hrn hts hab hz.1 hz.2
          · by_cases hb : 0 < ab.behind
            · rw [select_eq_pullButton flag s r ab hpr hrn hts hab hb]
              exact hpull r ab hpr hrn hts hab hb
            · have ha : 0 < ab.ahead := by omega
              have hb0 : ab.behind = 0 := by omega
              rw [select_eq_pushButton flag s r ab hpr hrn hts hab ha hb0]
              exact hpush r ab hpr hrn hts hab ha hb0
      · rw [select_eq_unbornRepositoryButton flag s r hpr hrn hts]
        exact hunborn r hpr hrn hts
      · rw [select_eq_detachedHeadButton flag s r hpr hrn hts]
        exact hdetached r hpr hrn hts
  · rw [select_eq_progressButton flag s p hpr]
    exact hprog p hpr

/-! ### Sample statuses used to instantiate the theorems -/

/-- A progress snapshot whose description is the empty string. -/
def progressSample : Progress :=
  { title := "Pushing to origin", description := some "", value := 0.5 }

/-- A status in the middle of an operation, both ahead and behind. -/
def statusInProgress : SyncStatus :=
  { aheadBehind := some ⟨1, 1⟩, remoteName := some "origin"
    networkActionInProgress := true, lastFetched := none
    progress := some progressSample, tipState := .Valid
    pullWithRebase := none, rebaseInProgress := false, isGitHubHosted := true }

/-- An unborn branch in a repository that was never published. -/
def statusUnbornNoRemote : SyncStatus :=
  { aheadBehind := some ⟨2, 3⟩, remoteName := none
    networkActionInProgress := false, lastFetched := none
    progress := none, tipState := .Unborn
    pullWithRebase := none, rebaseInProgress := false, isGitHubHosted := false }

/-- An unborn branch in a published repository. -/
def statusUnborn : SyncStatus :=
  { aheadBehind := some ⟨5, 7⟩, remoteName := some "origin"
    networkActionInProgress := false, lastFetched := some 42
    progress := none, tipState := .Unborn
    pullWithRebase := some true, rebaseInProgress := true, isGitHubHosted := true }

/-- A valid branch both ahead and behind, no rebase preference. -/
def statusPull : SyncStatus :=
  { aheadBehind := some ⟨2, 3⟩, remoteName := some "origin"
    networkActionInProgress := false, lastFetched := none
    progress := none, tipState := .Valid
    pullWithRebase := none, rebaseInProgress := false, isGitHubHosted := true }

/-- Like `statusPull` but with the rebase preference switched on. -/
def statusPullRebase : SyncStatus :=
  { statusPull with pullWithRebase := some true }

/-! ### Claim theorems -/

/-- C1 (counterexample): the progress description is not always shown
verbatim.  With `progress.description = some ""` the rendered description
is the fallback `"Hang on…"`, not the empty string. -/
theorem C1_counterexample :
    statusInProgress.progress = some progressSample ∧
    progressSample.description = some "" ∧
    (select true statusInProgress).description = .str "Hang on…" ∧
    DescriptionContent.str "Hang on…" ≠ DescriptionContent.str "" := by
  refine ⟨rfl, rfl, ?_, by decide⟩
  rfl

/-- C1 (amended): for every SyncStatus with progress present, `select`
returns the In-Progress descriptor regardless of every other field:
disabled with no action, badge suppressed, progress title shown verbatim,
description shown verbatim when it is a non-empty string and the fallback
`"Hang on…"` otherwise, and the icon spins iff `networkActionInProgress`. -/
theorem C1_inProgress (flag : Bool) (s : SyncStatus) (p : Progress)
    (h : s.progress = some p) :
    select flag s = progressButton p s.networkActionInProgress s.aheadBehind ∧
    (select flag s).disabled = true ∧
    (select flag s).onClick = none ∧
    (select flag s).badge = none ∧
    (select flag s).title = p.title ∧
    (∀ d : String, p.description = some d → d ≠ "" →
      (select flag s).description = .str d) ∧
    ((p.description = none ∨ p.description = some "") →
      (select flag s).description = .str "Hang on…") ∧
    (select flag s).iconClassName =
      some (if s.networkActionInProgress then "spin" else "") := by
  have e := select_eq_progressButton flag s p h
  rw [e]
  refine ⟨rfl, rfl, rfl, ?_, rfl, ?_, ?_, rfl⟩
  · show renderAheadBehind (some p) s.aheadBehind = none
    cases s.aheadBehind <;> rfl
  · intro d hd hne
    show DescriptionContent.str (jsOrElse p.description "Hang on…") = .str d
    rw [hd]
    simp [jsOrElse, hne]
  · intro hd
    show DescriptionContent.str (jsOrElse p.description "Hang on…") =
      .str "Hang on…"
    rcases hd with hd | hd <;> rw [hd] <;> simp [jsOrElse]

/-- C1 witness: the amended theorem instantiated at `statusInProgress`. -/
theorem C1_inProgress_witness :
    select true statusInProgress = progressButton progressSample true (some ⟨1, 1⟩) ∧
    (select true statusInProgress).onClick = none ∧
    (select true statusInProgress).iconClassName = some "spin" := by
  have h := C1_inProgress true statusInProgress progressSample rfl
  exact ⟨h.1, h.2.2.1, h.2.2.2.2.2.2.2⟩

/-- C2 (counterexample): the claim quantifies over every SyncStatus with
`ahead > 0` and `behind > 0`, but when `progress` is present the higher
priority In-Progress rule fires: at `statusInProgress` (ahead 1, behind 1,
progress present) the result is the disabled In-Progress descriptor, not
the Pull descriptor. -/
theorem C2_counterexample :
    statusInProgress.aheadBehind = some ⟨1, 1⟩ ∧
    (select true statusInProgress).onClick ≠ some ActionTag.Pull ∧
    (select true statusInProgress).disabled = true ∧
    (select true statusInProgress).icon ≠ OcticonSymbol.arrowDown := by
  refine ⟨rfl, ?_, rfl, ?_⟩ <;> decide

/-- C2 (amended): for every SyncStatus with `ahead > 0` and `behind > 0`
the result is never the Push descriptor (its up-arrow icon never appears);
and when additionally no higher-priority rule fires (progress absent,
remote present, tip valid) the result is exactly the Pull descriptor with
action Pull. -/
theorem C2_pullPrecedence :
    (∀ (flag : Bool) (s : SyncStatus) (ab : IAheadBehind),
      s.aheadBehind = some ab → 0 < ab.ahead → 0 < ab.behind →
      (select flag s).icon ≠ .arrowUp) ∧
    (∀ (flag : Bool) (s : SyncStatus) (r : String) (ab : IAheadBehind),
      s.progress = none → s.remoteName = some r → s.tipState = .Valid →
      s.aheadBehind = some ab → 0 < ab.ahead → 0 < ab.behind →
      select flag s =
        pullButton r ab s.lastFetched (s.pullWithRebase.getD false) flag .Pull ∧
      (select flag s).onClick = some .Pull) := by
  constructor
  · intro flag s ab h4 hahead hbehind
    rcases hpr : s.progress with _ | p
    · rcases hrn : s.remoteName with _ | r
      · rw [select_eq_publishRepositoryButton flag s hpr hrn]
        exact fun hx => OcticonSymbol.noConfusion hx
      · rcases hts : s.tipState with _ | _ | _
        · rw [select_eq_pullButton flag s r ab hpr hrn hts h4 hbehind]
          exact fun hx => OcticonSymbol.noConfusion hx
        · rw [select_eq_unbornRepositoryButton flag s r hpr hrn hts]
          exact fun hx => OcticonSymbol.noConfusion hx
        · rw [select_eq_detachedHeadButton flag s r hpr hrn hts]
          exact fun hx => OcticonSymbol.noConfusion hx
    · rw [select_eq_progressButton flag s p hpr]
      exact fun hx => OcticonSymbol.noConfusion hx
  · intro flag s r ab h1 h2 h3 h4 hahead hbehind
    have e := select_eq_pullButton flag s r ab h1 h2 h3 h4 hbehind
    rw [e]
    exact ⟨rfl, rfl⟩

/-- C2 witness: the amended theorem instantiated at `statusPull`. -/
theorem C2_pullPrecedence_witness :
    select true statusPull = pullButton "origin" ⟨2, 3⟩ none false true .Pull ∧
    (select true statusPull).onClick = some .Pull := by
  have h := C2_pullPrecedence.2 true statusPull "origin" ⟨2, 3⟩
    rfl rfl rfl rfl (by decide) (by decide)
  exact h

/-- C5 (counterexample): the claim makes the Unborn rule independent of
every other field, but `remoteName` absent has higher priority: at
`statusUnbornNoRemote` (unborn tip, no remote) the result is the enabled
Publish-Repository descriptor with action Push, not the disabled
Publish-Branch variant. -/
theorem C5_counterexample :
    statusUnbornNoRemote.tipState = .Unborn ∧
    (select false statusUnbornNoRemote).title = "Publish repository" ∧
    (select false statusUnbornNoRemote).disabled = false ∧
    (select false statusUnbornNoRemote).onClick = some .Push ∧
    select false statusUnbornNoRemote ≠ unbornRepositoryButton := by
  refine ⟨rfl, rfl, rfl, rfl, fun h => ?_⟩
  have ht := congrArg ToolbarButton.title h
  revert ht
  decide

/-- C5 (amended): for every SyncStatus with `tipState = Unborn`, `progress`
absent and `remoteName` present, `select` returns the disabled
Publish-Branch (unborn) variant with no action, independent of
`aheadBehind` and of every remaining field. -/
theorem C5_unbornDisabled (flag : Bool) (s : SyncStatus) (r : String)
    (h1 : s.progress = none) (h2 : s.remoteName = some r)
    (h3 : s.tipState = .Unborn) :
    select flag s = unbornRepositoryButton ∧
    (select flag s).disabled = true ∧
    (select flag s).onClick = none ∧
    (select flag s).title = "Publish branch" := by
  have e := select_eq_unbornRepositoryButton flag s r h1 h2 h3
  rw [e]
  exact ⟨rfl, rfl, rfl, rfl⟩

/-- C5 witness: the amended theorem instantiated at `statusUnborn`, whose
`aheadBehind` is present and non-zero. -/
theorem C5_unbornDisabled_witness :
    select true statusUnborn = unbornRepositoryButton ∧
    (select true statusUnborn).onClick = none := by
  have h := C5_unbornDisabled true statusUnborn "origin" rfl rfl rfl
  exact ⟨h.1, h.2.2.1⟩

/-- C6: for every SyncStatus with `progress` absent and `remoteName`
absent, `select` returns the Publish-Repository descriptor, enabled, with
action Push, regardless of `tipState` and `aheadBehind`. -/
theorem C6_publishRepository (flag : Bool) (s : SyncStatus)
    (h1 : s.progress = none) (h2 : s.remoteName = none) :
    select flag s = publishRepositoryButton .Push ∧
    (select flag s).disabled = false ∧
    (select flag s).onClick = some .Push := by
  have e := select_eq_publishRepositoryButton flag s h1 h2
  rw [e]
  exact ⟨rfl, rfl, rfl⟩

/-- C6 witness: instantiated at `statusUnbornNoRemote`, whose tip is
unborn and whose `aheadBehind` is present and non-zero. -/
theorem C6_publishRepository_witness :
    select true statusUnbornNoRemote = publishRepositoryButton .Push ∧
    (select true statusUnbornNoRemote).onClick = some .Push := by
  have h := C6_publishRepository true statusUnbornNoRemote rfl rfl
  exact ⟨h.1, h.2.2⟩

/-- C3: in every Descriptor `select` returns, an `onClick` action is bound
iff the button is enabled; the In-Progress, Unborn and Detached builders
are disabled with no action, and the Publish-Repository, Publish-Branch,
Fetch, Pull and Push builders are enabled with exactly one bound action. -/
theorem C3_actionIffEnabled :
    (∀ (flag : Bool) (s : SyncStatus),
      (select flag s).onClick.isSome = !(select flag s).disabled) ∧
    (∀ (p : Progress) (n : Bool) (ab : Option IAheadBehind),
      (progressButton p n ab).disabled = true ∧
      (progressButton p n ab).onClick = none) ∧
    (unbornRepositoryButton.disabled = true ∧
      unbornRepositoryButton.onClick = none) ∧
    (∀ rip : Bool, (detachedHeadButton rip).disabled = true ∧
      (detachedHeadButton rip).onClick = none) ∧
    (∀ a, (publishRepositoryButton a).disabled = false ∧
      (publishRepositoryButton a).onClick = some a) ∧
    (∀ g a, (publishBranchButton g a).disabled = false ∧
      (publishBranchButton g a).onClick = some a) ∧
    (∀ r ab lf a, (fetchButton r ab lf a).disabled = false ∧
      (fetchButton r ab lf a).onClick = some a) ∧
    (∀ r ab lf pwr fl a, (pullButton r ab lf pwr fl a).disabled = false ∧
      (pullButton r ab lf pwr fl a).onClick = some a) ∧
    (∀ r ab lf a, (pushButton r ab lf a).disabled = false ∧
      (pushButton r ab lf a).onClick = some a) := by
  refine ⟨?_, fun p n ab => ⟨rfl, rfl⟩, ⟨rfl, rfl⟩, fun rip => ⟨rfl, rfl⟩,
    fun a => ⟨rfl, rfl⟩, fun g a => ⟨rfl, rfl⟩, fun r ab lf a => ⟨rfl, rfl⟩,
    fun r ab lf pwr fl a => ⟨rfl, rfl⟩, fun r ab lf a => ⟨rfl, rfl⟩⟩
  intro flag s
  exact select_cases flag s (fun b => b.onClick.isSome = !b.disabled)
    (fun _ _ => rfl) (fun _ _ => rfl) (fun _ _ _ _ => rfl)
    (fun _ _ _ _ => rfl) (fun _ _ _ _ _ => rfl)
    (fun _ _ _ _ _ _ _ _ => rfl) (fun _ _ _ _ _ _ _ => rfl)
    (fun _ _ _ _ _ _ _ _ => rfl)

/-- C4: `select` returns a populated badge only when `progress` is absent
and `aheadBehind` is present with counts not both zero; the badge helper
suppresses the badge during an operation or without a pair, is populated
iff some count is positive, carries the ahead entry iff `ahead > 0` and
the behind entry iff `behind > 0`, and carries no other entries. -/
theorem C4_badgeInvariant :
    (∀ (flag : Bool) (s : SyncStatus) (entries : List BadgeEntry),
      (select flag s).badge = some entries →
      s.progress = none ∧
      ∃ ab, s.aheadBehind = some ab ∧ ¬(ab.ahead = 0 ∧ ab.behind = 0)) ∧
    (∀ (p : Progress) (ab : Option IAheadBehind),
      renderAheadBehind (some p) ab = none) ∧
    (∀ p : Option Progress, renderAheadBehind p none = none) ∧
    (∀ ab : IAheadBehind,
      (renderAheadBehind none (some ab)).isSome ↔
        ¬(ab.ahead = 0 ∧ ab.behind = 0)) ∧
    (∀ (ab : IAheadBehind) (entries : List BadgeEntry),
      renderAheadBehind none (some ab) = some entries →
      ((⟨"ahead", ab.ahead, .arrowSmallUp⟩ : BadgeEntry) ∈ entries ↔
        0 < ab.ahead) ∧
      ((⟨"behind", ab.behind, .arrowSmallDown⟩ : BadgeEntry) ∈ entries ↔
        0 < ab.behind) ∧
      ∀ e ∈ entries, e.key = "ahead" ∨ e.key = "behind") := by
  refine ⟨?_, renderAheadBehind_progress, renderAheadBehind_nonePair, ?_, ?_⟩
  · intro flag s entries h
    refine select_cases flag s
      (fun b => b.badge = some entries →
        s.progress = none ∧
        ∃ ab, s.aheadBehind = some ab ∧ ¬(ab.ahead = 0 ∧ ab.behind = 0))
      ?_ ?_ ?_ ?_ ?_ ?_ ?_ ?_ h
    · intro p _ hb
      simp [progressButton, renderAheadBehind_progress] at hb
    · intro _ _ hb
      simp [publishRepositoryButton] at hb
    · intro r _ _ _ hb
      simp [unbornRepositoryButton] at hb
    · intro r _ _ _ hb
      simp [detachedHeadButton] at hb
    · intro r _ _ _ _ hb
      simp [publishBranchButton] at hb
    · intro r ab _ _ _ _ ha hb0 hb
      simp [fetchButton, renderAheadBehind_some, ha, hb0] at hb
    · intro r ab h1 _ _ h4 hb hbadge
      exact ⟨h1, ab, h4, by omega⟩
    · intro r ab h1 _ _ h4 ha hb0 hbadge
      exact ⟨h1, ab, h4, by omega⟩
  · intro ab
    rw [renderAheadBehind_some]
    by_cases hz : ab.ahead = 0 ∧ ab.behind = 0 <;> simp [hz]
  · intro ab entries h
    rw [renderAheadBehind_some] at h
    by_cases hz : ab.ahead = 0 ∧ ab.behind = 0
    · rw [if_pos hz] at h
      exact Option.noConfusion h
    · rw [if_neg hz] at h
      have he := (Option.some.inj h).symm
      subst he
      have hk : ("ahead" : String) ≠ "behind" := by decide
      rcases Nat.eq_zero_or_pos ab.ahead with ha | ha <;>
        rcases Nat.eq_zero_or_pos ab.behind with hb | hb
      · exact absurd ⟨ha, hb⟩ hz
      · refine ⟨?_, ?_, ?_⟩
        · simp [ha, BadgeEntry.mk.injEq, hk]
        · simp [ha, hb]
        · intro e he
          simp [ha, hb] at he
          rw [he]
          right
          rfl
      · refine ⟨?_, ?_, ?_⟩
        · simp [ha, hb]
        · simp [hb, BadgeEntry.mk.injEq, hk.symm]
        · intro e he
          simp [ha, hb] at he
          rw [he]
          left
          rfl
      · refine ⟨?_, ?_, ?_⟩
        · simp [ha, hb]
        · simp [ha, hb]
        · intro e he
          simp [ha, hb] at he
          rcases he with he | he <;> rw [he]
          · left
            rfl
          · right
            rfl

/-- C4 witness: the badge for a branch 2 ahead and 3 behind holds exactly
the ahead and the behind entry. -/
theorem C4_badgeInvariant_witness :
    ((⟨"ahead", 2, .arrowSmallUp⟩ : BadgeEntry) ∈
      ([⟨"ahead", 2, .arrowSmallUp⟩, ⟨"behind", 3, .arrowSmallDown⟩] :
        List BadgeEntry) ↔ 0 < 2) ∧
    ((⟨"behind", 3, .arrowSmallDown⟩ : BadgeEntry) ∈
      ([⟨"ahead", 2, .arrowSmallUp⟩, ⟨"behind", 3, .arrowSmallDown⟩] :
        List BadgeEntry) ↔ 0 < 3) := by
  have h := C4_badgeInvariant.2.2.2.2 ⟨2, 3⟩
    [⟨"ahead", 2, .arrowSmallUp⟩, ⟨"behind", 3, .arrowSmallDown⟩] rfl
  exact ⟨h.1, h.2.1⟩

/-- C7: whenever `select` returns the Pull descriptor, its title is the
rebase variant `"Pull <remote> with rebase"` iff the rebase preference is
`some true` and the rebase-pull capability flag is enabled; otherwise it
is the plain `"Pull <remote>"`. -/
theorem C7_pullTitleRebase (flag : Bool) (s : SyncStatus) (r : String)
    (ab : IAheadBehind) (h1 : s.progress = none) (h2 : s.remoteName = some r)
    (h3 : s.tipState = .Valid) (h4 : s.aheadBehind = some ab)
    (h5 : 0 < ab.behind) :
    select flag s =
      pullButton r ab s.lastFetched (s.pullWithRebase.getD false) flag .Pull ∧
    (select flag s).title =
      (if s.pullWithRebase = some true ∧ flag = true
       then "Pull " ++ r ++ " with rebase" else "Pull " ++ r) := by
  have e := select_eq_pullButton flag s r ab h1 h2 h3 h4 h5
  refine ⟨e, ?_⟩
  rw [e]
  show (if (s.pullWithRebase.getD false) && flag
    then "Pull " ++ r ++ " with rebase" else "Pull " ++ r) = _
  rcases hpw : s.pullWithRebase with _ | b
  · simp
  · cases b <;> cases flag <;> simp

/-- C7 witness: with preference `some true` and the flag on the title is
the rebase variant; with no preference it stays plain. -/
theorem C7_pullTitleRebase_witness :
    (select true statusPullRebase).title = "Pull origin with rebase" ∧
    (select false statusPull).title = "Pull origin" := by
  have h1 := (C7_pullTitleRebase true statusPullRebase "origin" ⟨2, 3⟩
    rfl rfl rfl rfl (by decide)).2
  have h2 := (C7_pullTitleRebase false statusPull "origin" ⟨2, 3⟩
    rfl rfl rfl rfl (by decide)).2
  rw [if_pos ⟨rfl, rfl⟩] at h1
  rw [if_neg (by decide)] at h2
  exact ⟨h1, h2⟩

/-- C8: `select` is a pure total function: every well-typed status maps to
a defined Descriptor, and structurally identical inputs (with an identical
capability flag) yield structurally identical Descriptors. -/
theorem C8_pureTotalDeterministic :
    (∀ (flag : Bool) (s : SyncStatus), ∃ d : ToolbarButton, select flag s = d) ∧
    (∀ (flag : Bool) (s t : SyncStatus), s = t →
      select flag s = select flag t) :=
  ⟨fun _ _ => ⟨_, rfl⟩, fun _ _ _ h => by rw [h]⟩

/-- C8 witness: determinism instantiated at `statusPull`. -/
theorem C8_pureTotalDeterministic_witness :
    select true statusPull = select true statusPull :=
  C8_pureTotalDeterministic.2 true statusPull statusPull rfl

/-- C9: an absent `pullWithRebase` preference behaves exactly as `false`:
`select` is unchanged by replacing it with `some false`, and the Pull
title stays plain even when the capability flag is enabled. -/
theorem C9_rebasePreferenceDefault :
    (∀ (flag : Bool) (s : SyncStatus), s.pullWithRebase = none →
      select flag s = select flag { s with pullWithRebase := some false }) ∧
    (∀ (flag : Bool) (s : SyncStatus) (r : String) (ab : IAheadBehind),
      s.progress = none → s.remoteName = some r → s.tipState = .Valid →
      s.aheadBehind = some ab → 0 < ab.behind → s.pullWithRebase = none →
      (select flag s).title = "Pull " ++ r) := by
  constructor
  · intro flag s hpw
    rcases s with ⟨ab, rn, nap, lf, pr, ts, pwr, rip, gh⟩
    have h : pwr = none := hpw
    subst h
    cases pr <;> cases rn <;> cases ts <;> rcases ab with _ | ⟨x, y⟩ <;>
      try rcases x with _ | x <;> try rcases y with _ | y
    all_goals rfl
  · intro flag s r ab h1 h2 h3 h4 h5 hpw
    have e := select_eq_pullButton flag s r ab h1 h2 h3 h4 h5
    rw [e]
    show (if (s.pullWithRebase.getD false) && flag
      then "Pull " ++ r ++ " with rebase" else "Pull " ++ r) = _
    rw [hpw]
    rfl

/-- C9 witness: the default instantiated at `statusPull` with the flag
enabled. -/
theorem C9_rebasePreferenceDefault_witness :
    select true statusPull =
      select true { statusPull with pullWithRebase := some false } ∧
    (select true statusPull).title = "Pull origin" :=
  ⟨C9_rebasePreferenceDefault.1 true statusPull rfl,
   C9_rebasePreferenceDefault.2 true statusPull "origin" ⟨2, 3⟩
     rfl rfl rfl rfl (by decide) rfl⟩

/-- C10: `lastFetched` never influences which affordance is selected: two
statuses differing only in `lastFetched` get Descriptors agreeing on every
field but the description, and the description too agrees whenever a rule
other than Fetch, Pull or Push fires. -/
theorem C10_lastFetchedIrrelevant (flag : Bool) (s : SyncStatus)
    (lf1 lf2 : Option Nat) :
    (select flag { s with lastFetched := lf1 }).title =
      (select flag { s with lastFetched := lf2 }).title ∧
    (select flag { s with lastFetched := lf1 }).progressValue =
      (select flag { s with lastFetched := lf2 }).progressValue ∧
    (select flag { s with lastFetched := lf1 }).className =
      (select flag { s with lastFetched := lf2 }).className ∧
    (select flag { s with lastFetched := lf1 }).icon =
      (select flag { s with lastFetched := lf2 }).icon ∧
    (select flag { s with lastFetched := lf1 }).iconClassName =
      (select flag { s with lastFetched := lf2 }).iconClassName ∧
    (select flag { s with lastFetched := lf1 }).style =
      (select flag { s with lastFetched := lf2 }).style ∧
    (select flag { s with lastFetched := lf1 }).tooltip =
      (select flag { s with lastFetched := lf2 }).tooltip ∧
    (select flag { s with lastFetched := lf1 }).disabled =
      (select flag { s with lastFetched := lf2 }).disabled ∧
    (select flag { s with lastFetched := lf1 }).onClick =
      (select flag { s with lastFetched := lf2 }).onClick ∧
    (select flag { s with lastFetched := lf1 }).badge =
      (select flag { s with lastFetched := lf2 }).badge ∧
    ((s.progress ≠ none ∨ s.remoteName = none ∨ s.tipState = .Unborn ∨
        s.tipState = .Detached ∨ s.aheadBehind = none) →
      (select flag { s with lastFetched := lf1 }).description =
        (select flag { s with lastFetched := lf2 }).description) := by
  rcases option_cases s.progress with hpr | ⟨p, hpr⟩
  · rcases option_cases s.remoteName with hrn | ⟨r, hrn⟩
    · rw [select_eq_publishRepositoryButton flag { s with lastFetched := lf1 } hpr hrn,
          select_eq_publishRepositoryButton flag { s with lastFetched := lf2 } hpr hrn]
      exact ⟨rfl, rfl, rfl, rfl, rfl, rfl, rfl, rfl, rfl, rfl, fun _ => rfl⟩
    · rcases tipState_cases s.tipState with hts | hts | hts
      · rcases option_cases s.aheadBehind with hab | ⟨ab, hab⟩
        · rw [select_eq_publishBranchButton flag { s with lastFetched := lf1 } r
                hpr hrn hts hab,
              select_eq_publishBranchButton flag { s with lastFetched := lf2 } r
                hpr hrn hts hab]
          exact ⟨rfl, rfl, rfl, rfl, rfl, rfl, rfl, rfl, rfl, rfl, fun _ => rfl⟩
        · by_cases hz : ab.ahead = 0 ∧ ab.behind = 0
          · rw [select_eq_fetchButton flag { s with lastFetched := lf1 } r ab
                  hpr hrn hts hab hz.1 hz.2,
                select_eq_fetchButton flag { s with lastFetched := lf2 } r ab
                  hpr hrn hts hab hz.1 hz.2]
            refine ⟨rfl, rfl, rfl, rfl, rfl, rfl, rfl, rfl, rfl, rfl, ?_⟩
            intro hcon
            simp [hpr, hrn, hts, hab] at hcon
          · by_cases hb : 0 < ab.behind
            · rw [select_eq_pullButton flag { s with lastFetched := lf1 } r ab
                    hpr hrn hts hab hb,
                  select_eq_pullButton flag { s with lastFetched := lf2 } r ab
                    hpr hrn hts hab hb]
              refine ⟨rfl, rfl, rfl, rfl, rfl, rfl, rfl, rfl, rfl, rfl, ?_⟩
              intro hcon
              simp [hpr, hrn, hts, hab] at hcon
            · have ha : 0 < ab.ahead := by omega
              have hb0 : ab.behind = 0 := by omega
              rw [select_eq_pushButton flag { s with lastFetched := lf1 } r ab
                    hpr hrn hts hab ha hb0,
                  select_eq_pushButton flag { s with lastFetched := lf2 } r ab
                    hpr hrn hts hab ha hb0]
              refine ⟨rfl, rfl, rfl, rfl, rfl, rfl, rfl, rfl, rfl, rfl, ?_⟩
              intro hcon
              simp [hpr, hrn, hts, hab] at hcon
      · rw [select_eq_unbornRepositoryButton flag { s with lastFetched := lf1 } r
              hpr hrn hts,
            select_eq_unbornRepositoryButton flag { s with lastFetched := lf2 } r
              hpr hrn hts]
        exact ⟨rfl, rfl, rfl, rfl, rfl, rfl, rfl, rfl, rfl, rfl, fun _ => rfl⟩
      · rw [select_eq_detachedHeadButton flag { s with lastFetched := lf1 } r
              hpr hrn hts,
            select_eq_detachedHeadButton flag { s with lastFetched := lf2 } r
              hpr hrn hts]
        exact ⟨rfl, rfl, rfl, rfl, rfl, rfl, rfl, rfl, rfl, rfl, fun _ => rfl⟩
  · rw [select_eq_progressButton flag { s with lastFetched := lf1 } p hpr,
        select_eq_progressButton flag { s with lastFetched := lf2 } p hpr]
    exact ⟨rfl, rfl, rfl, rfl, rfl, rfl, rfl, rfl, rfl, rfl, fun _ => rfl⟩

/-- C10 witness: the action with different fetch dates at `statusPull`,
and the description with different fetch dates while in progress. -/
theorem C10_lastFetchedIrrelevant_witness :
    (select true { statusPull with lastFetched := some 1 }).onClick =
      (select true { statusPull with lastFetched := some 2 }).onClick ∧
    (select true { statusInProgress with lastFetched := some 1 }).description =
      (select true { statusInProgress with lastFetched := some 2 }).description := by
  have h1 := C10_lastFetchedIrrelevant true statusPull (some 1) (some 2)
  have h2 := C10_lastFetchedIrrelevant true statusInProgress (some 1) (some 2)
  exact ⟨h1.2.2.2.2.2.2.2.2.1,
    h2.2.2.2.2.2.2.2.2.2.2 (Or.inl (fun h => Option.noConfusion h))⟩

end PushPull
